import Mathlib

/-!
# Verification of the hotleak site adapter

Shallow embedding of `src/gallery_dl/extractor/hotleak.py`: the URL router
patterns, the post / creator / category extractor variants, the shared HTML
pagination primitive and the creator variant's JSON pagination with its
rate-limit handling.  Helpers from the surrounding framework (`text.*`,
`Extractor.request`, `Extractor.wait`) are not part of the source tree; they
are modelled from the specification's description of their contracts and are
marked as such in their doc comments.
-/

namespace Hotleak

/-! ## Substring machinery (embedding of `text.extract` and friends)

Python's `str.index` finds the first occurrence of a substring.  `splitFirst
sub l` returns `(before, after)` around the first occurrence of `sub` in `l`,
or `none` when `sub` does not occur. -/

def splitFirst (sub : List Char) : List Char → Option (List Char × List Char)
  | [] => if sub.isEmpty then some ([], []) else none
  | c :: cs =>
    if sub.isPrefixOf (c :: cs) then
      some ([], (c :: cs).drop sub.length)
    else
      match splitFirst sub cs with
      | some (pre, post) => some (c :: pre, post)
      | none => none

/-- Embedding of `text.extract(txt, begin, end)[0]`: the text strictly between
the first occurrence of `b` and the next occurrence of `e` after it, or `none`
when either delimiter is missing. -/
def extractS (txt b e : String) : Option String :=
  match splitFirst b.data txt.data with
  | none => none
  | some (_, afterB) =>
    match splitFirst e.data afterB with
    | none => none
    | some (content, _) => some (String.mk content)

/-- Python's `sub in txt` membership test. -/
def containsSub (txt sub : String) : Bool :=
  (splitFirst sub.data txt.data).isSome

/-- One step of `text.extract_iter`: fuelled recursion; the fuel is set by the
wrapper to more than the text length, which every genuine iteration step
strictly decreases, so it never runs out on the nonempty delimiters the
adapter uses. -/
def extractIterGo (b e : List Char) : Nat → List Char → List (List Char)
  | 0, _ => []
  | fuel + 1, l =>
    match splitFirst b l with
    | none => []
    | some (_, afterB) =>
      match splitFirst e afterB with
      | none => []
      | some (content, rest) => content :: extractIterGo b e fuel rest

/-- Embedding of `text.extract_iter(txt, begin, end)`: every piece of text
between successive `b` / `e` delimiter pairs, scanning left to right. -/
def extractIterS (txt b e : String) : List String :=
  (extractIterGo b.data e.data (txt.data.length + 1) txt.data).map String.mk

/-- Splitting on every non-overlapping occurrence of a separator, left to
right, as Python's `str.split(sep)`.  Fuelled: the wrapper supplies more fuel
than the text length, and every step strictly shortens the remaining text for
a nonempty separator. -/
def splitOnGo (sep : List Char) : Nat → List Char → List (List Char)
  | 0, l => [l]
  | fuel + 1, l =>
    match splitFirst sep l with
    | none => [l]
    | some (pre, post) => pre :: splitOnGo sep fuel post

def splitOnL (sep l : List Char) : List (List Char) :=
  if sep.isEmpty then [l] else splitOnGo sep (l.length + 1) l

def intercalateL (sep : List Char) : List (List Char) → List Char
  | [] => []
  | [x] => x
  | x :: xs => x ++ sep ++ intercalateL sep xs

/-- Python's `str.replace`: replace every non-overlapping occurrence, left to
right. -/
def replaceS (s pat rep : String) : String :=
  String.mk (intercalateL rep.data (splitOnL pat.data s.data))

/-! ## Framework text helpers, modelled from the spec -/

def digitsValGo (acc : Nat) : List Char → Option Nat
  | [] => some acc
  | c :: cs =>
    if c.isDigit then digitsValGo (acc * 10 + (c.toNat - 48)) cs else none

/-- Parsing of an optionally signed decimal integer; anything else fails. -/
def toIntL : List Char → Option Int
  | [] => none
  | c :: cs =>
    if c = '-' then
      match cs with
      | [] => none
      | _ => (digitsValGo 0 cs).map (fun n => -(n : Int))
    else (digitsValGo 0 (c :: cs)).map (fun n => (n : Int))

/-- Modelled from the spec: "integer parsing with a default"
(`text.parse_int(value, default)`): a missing or falsy value gives the
default, an unparsable string gives the default, otherwise the parsed
integer. -/
def parse_intS (v : Option String) (d : Int) : Int :=
  match v with
  | none => d
  | some s => if s = "" then d else (toIntL s.data).getD d

/-- Modelled from the spec: "query-string parsing" (`text.parse_query`):
split on `&`, then each pair on the first `=`; pairs without a value are
dropped; the first value for a key wins.  A missing query string gives the
empty mapping. -/
def parseQueryPair (kv : List Char) : Option (String × String) :=
  match splitOnL "=".data kv with
  | [] => none
  | [_] => none
  | k :: rest =>
    let v := intercalateL "=".data rest
    if v.isEmpty then none else some (String.mk k, String.mk v)

def parse_query (q : Option String) : List (String × String) :=
  match q with
  | none => []
  | some s =>
    (splitOnL "&".data s.data).foldl
      (fun acc kv =>
        match parseQueryPair kv with
        | none => acc
        | some (k, v) =>
          if (acc.lookup k).isSome then acc else acc ++ [(k, v)])
      []

/-- Modelled from the spec: "HTML-entity unescaping" (`text.unescape`),
for the standard named entities the adapter's pages use. -/
def unescape (s : String) : String :=
  replaceS (replaceS (replaceS (replaceS s "&quot;" "\"") "&lt;" "<")
    "&gt;" ">") "&amp;" "&"

/-- Modelled from the spec: "filename/extension derivation from a URL's final
path segment" (`text.nameext_from_url`): drop any query part, take the text
after the last `/`, and split it at its last `.` into filename and
extension. -/
def nameExt (url : String) : String × String :=
  let name := (splitOnL "/".data ((splitOnL "?".data url.data).headD [])).getLastD []
  match splitOnL ".".data name with
  | [] => ("", "")
  | [only] => ("", String.mk only)
  | parts =>
    (String.mk (intercalateL ".".data parts.dropLast),
      String.mk (parts.getLastD []))

/-! ## The PostRecord data model

The Python code builds records as dicts; a field that was never assigned is
absent, which the embedding renders as `none`. -/

structure Rec where
  id : Option Int := none
  creator : Option String := none
  ptype : Option String := none
  url : Option String := none
  filename : Option String := none
  extension : Option String := none
  deriving DecidableEq

/-- `text.nameext_from_url(url, data)`: store the derived filename and
extension into the record. -/
def nameextFromUrl (url : String) (d : Rec) : Rec :=
  { d with filename := some (nameExt url).1, extension := some (nameExt url).2 }

/-! ## URL router: regex patterns

The four module patterns use only literals, character classes, `?`, `+`,
alternation, a negative lookahead over literal words, and `$`.  `mtch` is a
complete backtracking matcher for this fragment in continuation style;
`matchRE` is Python's `pattern.match(url)` as a boolean (anchored at the
start, a prefix match suffices).  The trailing-newline nicety of `$` is
ignored; no URL in the patterns' domain contains a newline. -/

inductive RE where
  | lit (cs : List Char)
  | cls (neg : Bool) (cs : List Char)
  | plusCls (neg : Bool) (cs : List Char)
  | alt (a b : RE)
  | seq (a b : RE)
  | opt (r : RE)
  | nlk (ws : List (List Char))
  | eos

/-- Does `c` match the (possibly negated) character class `cs`? -/
def inCls (neg : Bool) (cs : List Char) (c : Char) : Bool :=
  (cs.contains c) != neg

/-- `plusTry neg cs s k`: all ways for `[class]+` to consume one or more
matching characters from `s` and hand the rest to `k`. -/
def plusTry (neg : Bool) (cs : List Char) : List Char → (List Char → Bool) → Bool
  | [], _ => false
  | c :: rest, k =>
    if inCls neg cs c then k rest || plusTry neg cs rest k else false

def mtch : RE → List Char → (List Char → Bool) → Bool
  | .lit cs, s, k => if cs.isPrefixOf s then k (s.drop cs.length) else false
  | .cls neg cs, s, k =>
    match s with
    | [] => false
    | c :: rest => if inCls neg cs c then k rest else false
  | .plusCls neg cs, s, k => plusTry neg cs s k
  | .alt a b, s, k => mtch a s k || mtch b s k
  | .seq a b, s, k => mtch a s (fun rest => mtch b rest k)
  | .opt r, s, k => mtch r s k || k s
  | .nlk ws, s, k => if ws.any (fun w => w.isPrefixOf s) then false else k s
  | .eos, s, k => if s.isEmpty then k s else false

def matchRE (r : RE) (url : String) : Bool :=
  mtch r url.data (fun _ => true)

/-- `BASE_PATTERN`: `(?:https?://)?(?:www\.)?hotleak\.vip` -/
def hlBase : RE :=
  .seq
    (.opt (.seq (.lit "http".data) (.seq (.opt (.lit "s".data))
      (.lit "://".data))))
    (.seq (.opt (.lit "www.".data)) (.lit "hotleak.vip".data))

/-- The reserved category names, as excluded by the lookahead
`(?!hot|creators|videos|photos)`. -/
def reservedWords : List (List Char) :=
  ["hot".data, "creators".data, "videos".data, "photos".data]

/-- `HotleakPostExtractor.pattern`:
`BASE /(?!hot|creators|videos|photos)([^/]+)/(photo|video)/(\d+)` -/
def hlPost : RE :=
  .seq hlBase (.seq (.lit "/".data) (.seq (.nlk reservedWords)
    (.seq (.plusCls true "/".data) (.seq (.lit "/".data)
      (.seq (.alt (.lit "photo".data) (.lit "video".data))
        (.seq (.lit "/".data) (.plusCls false "0123456789".data)))))))

/-- `HotleakCreatorExtractor.pattern`:
`BASE /(?!hot|creators|videos|photos)([^/?#]+)/?$` -/
def hlCreator : RE :=
  .seq hlBase (.seq (.lit "/".data) (.seq (.nlk reservedWords)
    (.seq (.plusCls true "/?#".data) (.seq (.opt (.lit "/".data)) .eos))))

/-- `HotleakCategoryExtractor.pattern`:
`BASE /(hot|creators|videos|photos)(?:/?\?([^#]+))?` -/
def hlCategory : RE :=
  .seq hlBase (.seq (.lit "/".data)
    (.seq (.alt (.alt (.lit "hot".data) (.lit "creators".data))
                (.alt (.lit "videos".data) (.lit "photos".data)))
      (.opt (.seq (.opt (.lit "/".data))
        (.seq (.lit "?".data) (.plusCls true "#".data))))))

/-- `HotleakSearchExtractor.pattern`: `BASE /search(?:/?\?([^#]+))` —
note the query group is not optional. -/
def hlSearch : RE :=
  .seq hlBase (.seq (.lit "/search".data)
    (.seq (.opt (.lit "/".data))
      (.seq (.lit "?".data) (.plusCls true "#".data))))

def matchPost (url : String) : Bool := matchRE hlPost url
def matchCreator (url : String) : Bool := matchRE hlCreator url
def matchCategory (url : String) : Bool := matchRE hlCategory url
def matchSearch (url : String) : Bool := matchRE hlSearch url

inductive ExtractorRef where
  | postExt
  | creatorExt
  | categoryExt
  | searchExt
  deriving DecidableEq

/-- The router: the first pattern that matches, in the order the extractor
classes appear in the module (post, creator, category, search). -/
def route (url : String) : Option ExtractorRef :=
  if matchPost url then some .postExt
  else if matchCreator url then some .creatorExt
  else if matchCategory url then some .categoryExt
  else if matchSearch url then some .searchExt
  else none

/-! ## The fetch layer, modelled from the spec

`fetch(url, params?, headers?, notfound-hint?)` raises the distinguished
NotFound error when the hint is set and the resource is absent (the HTTP
status indicating absence), and a distinguished HttpError carrying the
response for other non-success statuses.  Python-level failures that the
swallowed-exception path of the creator pagination can run into are also
distinguished errors here. -/

inductive PyExc where
  | notFoundError
  | httpError (status : Nat)
  | unboundLocal
  | attributeError
  | typeError
  deriving DecidableEq

deriving instance DecidableEq for Except

/-- Modelled from the spec: the `fetch` contract.  Status 200 yields the
body; 404 with the notfound hint set yields NotFound; any other non-success
status yields HttpError. -/
def requestResult (hint : Bool) (status : Nat) (body : String) :
    Except PyExc String :=
  if status = 200 then .ok body
  else if hint && status = 404 then .error .notFoundError
  else .error (.httpError status)

/-! ## Shared HTML pagination primitive (`HotleakExtractor._pagination`) -/

/-- Embedding of lines 37–38:
`params = text.parse_query(params); params["page"] = text.parse_int(params.get("page"), 1)` —
the starting value of the `page` parameter. -/
def initParamsPage (q : Option String) : Int :=
  parse_intS ((parse_query q).lookup "page") 1

structure HtmlPagResult where
  /-- The hrefs yielded, in order; `None` when the `<a href="` attribute was
  missing from an article block. -/
  yields : List (Option String)
  /-- `true` when the loop returned because a page had no `</article>`,
  `false` when the supplied page oracle was exhausted first. -/
  finished : Bool
  /-- The value of `params["page"]` when the loop stopped. -/
  finalPage : Int
  deriving DecidableEq

/-- The `while True` loop of `HotleakExtractor._pagination`: the oracle
`pages` lists the successive response texts the fetch layer would return. -/
def htmlPagination : List String → Int → HtmlPagResult
  | [], pg => ⟨[], false, pg⟩
  | p :: rest, pg =>
    if containsSub p "</article>" then
      let items :=
        (extractIterS p "<article class=\"movie-item" "</article>").map
          (fun item => extractS item "<a href=\"" "\"")
      let r := htmlPagination rest (pg + 1)
      ⟨items ++ r.yields, r.finished, r.finalPage⟩
    else ⟨[], true, pg⟩

/-- `HotleakExtractor._pagination(url, params)` with the page texts supplied
by an oracle. -/
def basePagination (q : Option String) (pages : List String) : HtmlPagResult :=
  htmlPagination pages (initParamsPage q)

/-! ## Messages and the category variant -/

inductive Msg where
  | directory (r : Rec)
  | url (u : Option String) (r : Rec)
  | queue (u : Option String) (ref : ExtractorRef)
  deriving DecidableEq

/-- The `_extractor` reference picked by `HotleakCategoryExtractor.items`;
`none` for a category name outside the four the pattern can produce (the
Python code would hit an unbound `data` there). -/
def categoryRef (cat : String) : Option ExtractorRef :=
  if cat = "hot" || cat = "creators" then some .creatorExt
  else if cat = "videos" || cat = "photos" then some .postExt
  else none

/-- `HotleakCategoryExtractor.items()`: every URL discovered by the HTML
pagination is re-emitted as a queue message tagged with the chosen
downstream extractor. -/
def categoryItems (cat : String) (q : Option String) (pages : List String) :
    List Msg :=
  match categoryRef cat with
  | none => []
  | some ref => (basePagination q pages).yields.map (fun u => .queue u ref)

/-! ## Post variant (`HotleakPostExtractor.posts`) -/

/-- The body of `HotleakPostExtractor.posts()` once the page text has been
fetched.  A missing marker makes the Python code raise while post-processing
the `None` returned by `text.extract`: `nameext_from_url(None, ...)` raises
AttributeError on the photo path, `text.unescape(None)` raises
AttributeError and `"ytdl:" + None` raises TypeError on the video path. -/
def postPostsBody (creator ptype id_ : String) (pageText : String) :
    Except PyExc (List Rec) :=
  let block? := extractS pageText "<div class=\"movie-image thumb\">" "</article>"
  let d0 : Rec :=
    { id := some (parse_intS (some id_) 0), creator := some creator,
      ptype := some ptype }
  if ptype = "photo" then
    match block? with
    | none => .error .attributeError
    | some block =>
      match extractS block "data-src=\"" "\"" with
      | none => .error .attributeError
      | some u => .ok [nameextFromUrl u { d0 with url := some u }]
  else if ptype = "video" then
    match block? with
    | none => .error .attributeError
    | some block =>
      match extractS (unescape block) "\"src\":\"" "\"" with
      | none => .error .typeError
      | some s =>
        let u := "ytdl:" ++ s
        .ok [{ nameextFromUrl u { d0 with url := some u } with
                extension := some "mp4" }]
  else .ok [d0]

/-- `HotleakPostExtractor.posts()` including the initial fetch, which passes
no notfound hint; `status` and `body` are the server's response. -/
def hotleakPostRun (creator ptype id_ : String) (status : Nat) (body : String) :
    Except PyExc (List Rec) :=
  match requestResult false status body with
  | .error e => .error e
  | .ok page => postPostsBody creator ptype id_ page

/-! ## Creator variant (`HotleakCreatorExtractor._pagination`) -/

/-- A post object of the JSON array returned by the AJAX endpoint. -/
structure Post where
  id : Int
  ptype : Int
  image : String
  stream_url_play : String
  deriving DecidableEq

/-- One step of the per-page record-building loop: the same `data` dict is
mutated from post to post, so fields set for an earlier post persist when a
later post does not overwrite them. -/
def postStep (data : Rec) (p : Post) : Rec :=
  let d1 := { data with id := some p.id }
  if p.ptype = 0 then
    let u := "https://hotleak.vip" ++ "/storage/" ++ p.image
    nameextFromUrl u { d1 with ptype := some "photo", url := some u }
  else if p.ptype = 1 then
    let u := "ytdl:" ++ p.stream_url_play
    { nameextFromUrl u { d1 with ptype := some "video", url := some u } with
        extension := some "mp4" }
  else d1

def buildGo (data : Rec) : List Post → List Rec
  | [] => []
  | p :: ps =>
    let d := postStep data p
    d :: buildGo d ps

/-- The records yielded for one page: `data` starts each page as
`{"creator": creator}`. -/
def buildPage (creator : String) (posts : List Post) : List Rec :=
  buildGo { creator := some creator } posts

/-- One response of the AJAX endpoint as the oracle presents it: the HTTP
status, the `X-RateLimit-Reset` header, and the JSON array the body decodes
to when it is consulted. -/
structure ServerResp where
  status : Nat
  rateReset : Option String := none
  posts : List Post := []
  deriving DecidableEq

inductive PagOutcome where
  | done
  | raised (e : PyExc)
  | outOfResponses
  deriving DecidableEq

structure PagResult where
  yields : List Rec
  /-- The `X-RateLimit-Reset` values passed to `self.wait`, in order. -/
  waits : List (Option String)
  /-- The value of `params["page"]` when the loop stopped. -/
  finalPage : Int
  outcome : PagOutcome
  deriving DecidableEq

/-- The `while True` loop of `HotleakCreatorExtractor._pagination`.  The
request carries `notfound="creator"`, so a 404 raises NotFound (uncaught, it
propagates).  A 429 is caught: the reset header is passed to `self.wait` and
the loop continues with `params` unchanged.  Any other HttpError is caught
too, and — the `except` block neither re-raising nor binding `response` —
control falls through to `posts = response.json()`, which reuses the
previous response, or hits an unbound `response` on the first iteration. -/
def creatorPag (creator : String) :
    List ServerResp → Int → Option (List Post) → List Rec →
      List (Option String) → PagResult
  | [], pg, _, acc, ws => ⟨acc, ws, pg, .outOfResponses⟩
  | r :: rest, pg, resp, acc, ws =>
    if r.status = 200 then
      if r.posts.isEmpty then ⟨acc, ws, pg, .done⟩
      else
        creatorPag creator rest (pg + 1) (some r.posts)
          (acc ++ buildPage creator r.posts) ws
    else if r.status = 404 then ⟨acc, ws, pg, .raised .notFoundError⟩
    else if r.status = 429 then
      creatorPag creator rest pg resp acc (ws ++ [r.rateReset])
    else
      match resp with
      | none => ⟨acc, ws, pg, .raised .unboundLocal⟩
      | some posts =>
        if posts.isEmpty then ⟨acc, ws, pg, .done⟩
        else
          creatorPag creator rest (pg + 1) (some posts)
            (acc ++ buildPage creator posts) ws

/-- `HotleakCreatorExtractor.posts()`: run the JSON pagination from
`params = {"page": 1}` against the oracle `rs`. -/
def creatorPosts (creator : String) (rs : List ServerResp) : PagResult :=
  creatorPag creator rs 1 none [] []

/-- Everything a pagination run produces apart from its wait log: the yielded
records, the final page counter and the outcome. -/
def pagCore (r : PagResult) : List Rec × Int × PagOutcome :=
  (r.yields, r.finalPage, r.outcome)

/-! ## Claims -/

/-- C1: the spec says a non-429 HttpError in the creator pagination
propagates unchanged to the caller.  The code's `except exception.HttpError`
block handles only the 429 case and never re-raises, so a non-429 HttpError
is swallowed: on the first page the fall-through hits the unbound `response`
variable (an UnboundLocalError, not the HttpError), and on a later page the
stale previous response is consumed again, duplicating its records and
advancing the page counter.  This theorem evaluates the embedding at both
failing inputs. -/
theorem c1_non429_swallowed :
    (creatorPosts "a" [⟨500, none, []⟩]).outcome = .raised .unboundLocal
    ∧ (creatorPosts "a" [⟨500, none, []⟩]).outcome ≠ .raised (.httpError 500)
    ∧ (creatorPosts "a"
        [⟨200, none, [⟨5, 0, "3/5/img.jpg", ""⟩]⟩, ⟨500, none, []⟩]).yields
      = [⟨some 5, some "a", some "photo",
          some "https://hotleak.vip/storage/3/5/img.jpg", some "img", some "jpg"⟩,
         ⟨some 5, some "a", some "photo",
          some "https://hotleak.vip/storage/3/5/img.jpg", some "img", some "jpg"⟩] := by
  decide

/-- C2 counterexample: the shared HTML pagination primitive does not
overwrite an existing `page` query parameter with 1 — the query string
`page=5` makes pagination start at page 5. -/
theorem c2_counterexample :
    initParamsPage (some "page=5") = 5 ∧ initParamsPage (some "page=5") ≠ 1 := by
  decide

/-- C2 amended: the primitive parses the query string into a parameter
mapping and sets `page` to the integer value of an existing `page` parameter
when one is present and parses as an integer; only otherwise does it fall
back to 1. -/
theorem c2_page_param_preserved (q : Option String) (s : String) (n : Int)
    (h1 : (parse_query q).lookup "page" = some s)
    (h2 : toIntL s.data = some n) :
    initParamsPage q = n := by
  have hs : s ≠ "" := by
    intro he
    subst he
    rw [show ("" : String).data = [] from rfl] at h2
    exact Option.noConfusion h2
  simp [initParamsPage, parse_intS, h1, hs, h2]

theorem c2_page_param_preserved_witness :
    (parse_query (some "page=5")).lookup "page" = some "5"
    ∧ toIntL "5".data = some 5
    ∧ initParamsPage (some "page=5") = 5 :=
  ⟨by decide, by decide,
    c2_page_param_preserved (some "page=5") "5" 5 (by decide) (by decide)⟩

/-- C3 counterexample: the post variant's request passes no notfound hint,
so a URL naming an absent post raises the HttpError of the absence status,
not the distinguished NotFound error. -/
theorem c3_counterexample :
    hotleakPostRun "alice" "photo" "1" 404 "" = .error (.httpError 404)
    ∧ hotleakPostRun "alice" "photo" "1" 404 "" ≠ .error .notFoundError := by
  decide

/-- C3 amended: the creator variant raises the distinguished NotFound error
on an absent creator (its request carries `notfound="creator"`, and the
`except` clause catches only HttpError), while the post variant — whose
request carries no notfound hint — propagates the fetch layer's HttpError
for an absent post. -/
theorem c3_notfound_amended :
    (∀ (c : String) (reset : Option String) (ps : List Post)
        (rest : List ServerResp),
      creatorPosts c (⟨404, reset, ps⟩ :: rest)
        = ⟨[], [], 1, .raised .notFoundError⟩)
    ∧ (∀ (c t i body : String),
        hotleakPostRun c t i 404 body = .error (.httpError 404)) :=
  ⟨fun _ _ _ _ => rfl, fun _ _ _ _ => rfl⟩

/-- C4 counterexample: a post object whose `type` field is neither 0 nor 1
is still yielded, and the record it produces carries no url field. -/
theorem c4_counterexample :
    (creatorPosts "a" [⟨200, none, [⟨5, 2, "x", "y"⟩]⟩]).yields
      = [⟨some 5, some "a", none, none, none, none⟩]
    ∧ ((creatorPosts "a" [⟨200, none, [⟨5, 2, "x", "y"⟩]⟩]).yields.all
        fun r => r.url.isSome) = false := by
  decide

/-- Records built from post objects of type 0 or 1 always carry a url. -/
theorem buildGo_url_isSome (posts : List Post) :
    ∀ (d : Rec), (∀ p ∈ posts, p.ptype = 0 ∨ p.ptype = 1) →
      ∀ r ∈ buildGo d posts, r.url.isSome = true := by
  induction posts with
  | nil => intro d _ r hr; simp [buildGo] at hr
  | cons p ps ih =>
    intro d h r hr
    simp only [buildGo] at hr
    rcases List.mem_cons.mp hr with rfl | hr2
    · rcases h p (List.mem_cons_self p ps) with h0 | h1
      · simp [postStep, h0, nameextFromUrl]
      · simp [postStep, h1, nameextFromUrl]
    · exact ih (postStep d p)
        (fun q hq => h q (List.mem_cons_of_mem p hq)) r hr2

/-- Invariant propagation for the creator pagination: when every post object
of the oracle (and of the possibly stale held response) has type 0 or 1, and
every record already yielded has a url, every record the run yields has a
url. -/
theorem creatorPag_url_isSome (c : String) (rs : List ServerResp) :
    ∀ (pg : Int) (resp : Option (List Post)) (acc : List Rec)
      (ws : List (Option String)),
      (∀ r ∈ rs, ∀ p ∈ r.posts, p.ptype = 0 ∨ p.ptype = 1) →
      (∀ ps, resp = some ps → ∀ p ∈ ps, p.ptype = 0 ∨ p.ptype = 1) →
      (∀ r ∈ acc, r.url.isSome = true) →
      ∀ r ∈ (creatorPag c rs pg resp acc ws).yields, r.url.isSome = true := by
  induction rs with
  | nil => intro pg resp acc ws _ _ hacc; simpa [creatorPag] using hacc
  | cons r rest ih =>
    intro pg resp acc ws hrs hresp hacc q hq
    have hr : ∀ p ∈ r.posts, p.ptype = 0 ∨ p.ptype = 1 :=
      hrs r (List.mem_cons_self r rest)
    have hrest : ∀ x ∈ rest, ∀ p ∈ x.posts, p.ptype = 0 ∨ p.ptype = 1 :=
      fun x hx => hrs x (List.mem_cons_of_mem r hx)
    rcases resp with _ | stale
    · simp only [creatorPag] at hq
      by_cases h200 : r.status = 200
      · rw [if_pos h200] at hq
        by_cases hemp : r.posts.isEmpty
        · rw [if_pos hemp] at hq
          exact hacc q hq
        · rw [if_neg hemp] at hq
          refine ih _ _ _ _ hrest ?_ ?_ q hq
          · intro ps hps
            injection hps with h
            subst h
            exact hr
          · intro x hx
            rcases List.mem_append.mp hx with hx1 | hx2
            · exact hacc x hx1
            · exact buildGo_url_isSome r.posts _ hr x hx2
      · rw [if_neg h200] at hq
        by_cases h404 : r.status = 404
        · rw [if_pos h404] at hq
          exact hacc q hq
        · rw [if_neg h404] at hq
          by_cases h429 : r.status = 429
          · rw [if_pos h429] at hq
            exact ih _ _ _ _ hrest (fun ps hps => Option.noConfusion hps)
              hacc q hq
          · rw [if_neg h429] at hq
            exact hacc q hq
    · have hstale : ∀ p ∈ stale, p.ptype = 0 ∨ p.ptype = 1 :=
        hresp stale rfl
      simp only [creatorPag] at hq
      by_cases h200 : r.status = 200
      · rw [if_pos h200] at hq
        by_cases hemp : r.posts.isEmpty
        · rw [if_pos hemp] at hq
          exact hacc q hq
        · rw [if_neg hemp] at hq
          refine ih _ _ _ _ hrest ?_ ?_ q hq
          · intro ps hps
            injection hps with h
            subst h
            exact hr
          · intro x hx
            rcases List.mem_append.mp hx with hx1 | hx2
            · exact hacc x hx1
            · exact buildGo_url_isSome r.posts _ hr x hx2
      · rw [if_neg h200] at hq
        by_cases h404 : r.status = 404
        · rw [if_pos h404] at hq
          exact hacc q hq
        · rw [if_neg h404] at hq
          by_cases h429 : r.status = 429
          · rw [if_pos h429] at hq
            exact ih _ _ _ _ hrest (fun ps hps => hresp ps hps) hacc q hq
          · rw [if_neg h429] at hq
            by_cases hemp : stale.isEmpty
            · rw [if_pos hemp] at hq
              exact hacc q hq
            · rw [if_neg hemp] at hq
              refine ih _ _ _ _ hrest ?_ ?_ q hq
              · intro ps hps
                injection hps with h
                subst h
                exact hstale
              · intro x hx
                rcases List.mem_append.mp hx with hx1 | hx2
                · exact hacc x hx1
                · exact buildGo_url_isSome stale _ hstale x hx2

/-- C4 amended: every record yielded for a post object of type 0 or 1
carries a url at the moment it is yielded, and so does the post variant's
record for the photo and video types its pattern admits; the claim's "whatever
the post object's type field is" fails for other type values. -/
theorem c4_url_present_amended :
    (∀ (c : String) (rs : List ServerResp),
      (∀ r ∈ rs, ∀ p ∈ r.posts, p.ptype = 0 ∨ p.ptype = 1) →
      ∀ rec_ ∈ (creatorPosts c rs).yields, rec_.url.isSome = true)
    ∧ (∀ (c i pg t : String), t = "photo" ∨ t = "video" →
      ∀ recs, postPostsBody c t i pg = .ok recs →
      ∀ rec_ ∈ recs, rec_.url.isSome = true) := by
  constructor
  · intro c rs h rec_ hrec
    exact creatorPag_url_isSome c rs 1 none [] []
      h (fun ps hps => Option.noConfusion hps) (fun x hx => absurd hx
        (List.not_mem_nil x)) rec_ hrec
  · intro c i pg t ht recs h rec_ hrec
    rcases ht with rfl | rfl
    · unfold postPostsBody at h
      rw [if_pos rfl] at h
      rcases hb : extractS pg "<div class=\"movie-image thumb\">" "</article>"
        with _ | block
      · rw [hb] at h
        exact Except.noConfusion h
      · rw [hb] at h
        dsimp only at h
        rcases hu : extractS block "data-src=\"" "\"" with _ | u
        · rw [hu] at h
          exact Except.noConfusion h
        · rw [hu] at h
          injection h with h
          subst h
          rcases List.mem_singleton.mp hrec with rfl
          simp [nameextFromUrl]
    · unfold postPostsBody at h
      rw [if_neg (by decide), if_pos rfl] at h
      rcases hb : extractS pg "<div class=\"movie-image thumb\">" "</article>"
        with _ | block
      · rw [hb] at h
        exact Except.noConfusion h
      · rw [hb] at h
        dsimp only at h
        rcases hs : extractS (unescape block) "\"src\":\"" "\"" with _ | s
        · rw [hs] at h
          exact Except.noConfusion h
        · rw [hs] at h
          injection h with h
          subst h
          rcases List.mem_singleton.mp hrec with rfl
          simp [nameextFromUrl]

theorem c4_url_present_amended_witness :
    (∀ r ∈ [(⟨200, none, [⟨1, 0, "a/b.jpg", ""⟩, ⟨2, 1, "", "c/d.m3u8"⟩]⟩ :
        ServerResp)], ∀ p ∈ r.posts, p.ptype = 0 ∨ p.ptype = 1)
    ∧ (∀ rec_ ∈ (creatorPosts "a"
        [⟨200, none, [⟨1, 0, "a/b.jpg", ""⟩, ⟨2, 1, "", "c/d.m3u8"⟩]⟩]).yields,
        rec_.url.isSome = true) :=
  ⟨by decide, c4_url_present_amended.1 "a"
    [⟨200, none, [⟨1, 0, "a/b.jpg", ""⟩, ⟨2, 1, "", "c/d.m3u8"⟩]⟩] (by decide)⟩

/-- The wait log is a pure accumulator: a run started with wait log `ws` is
the run started with an empty log, with `ws` prepended to the final log. -/
theorem creatorPag_waits_append (c : String) (rs : List ServerResp) :
    ∀ (pg : Int) (resp : Option (List Post)) (acc : List Rec)
      (ws : List (Option String)),
      creatorPag c rs pg resp acc ws
        = { creatorPag c rs pg resp acc [] with
            waits := ws ++ (creatorPag c rs pg resp acc []).waits } := by
  induction rs with
  | nil => intro pg resp acc ws; simp [creatorPag]
  | cons r rest ih =>
    intro pg resp acc ws
    by_cases h200 : r.status = 200
    · by_cases hemp : r.posts.isEmpty
      · simp only [creatorPag, if_pos h200, if_pos hemp]
        simp
      · simp only [creatorPag, if_pos h200, if_neg hemp]
        exact ih _ _ _ _
    · by_cases h404 : r.status = 404
      · simp only [creatorPag, if_neg h200, if_pos h404]
        simp
      · by_cases h429 : r.status = 429
        · simp only [creatorPag, if_neg h200, if_neg h404, if_pos h429]
          rw [ih pg resp acc (ws ++ [r.rateReset]),
            ih pg resp acc ([] ++ [r.rateReset])]
          simp
        · rcases resp with _ | stale
          · simp only [creatorPag, if_neg h200, if_neg h404, if_neg h429]
            simp
          · rcases stale with _ | ⟨p0, ps0⟩
            · simp only [creatorPag, if_neg h200, if_neg h404, if_neg h429]
              simp
            · simp only [creatorPag, if_neg h200, if_neg h404, if_neg h429,
                List.isEmpty_cons, Bool.false_eq_true, if_false]
              exact ih _ _ _ _

/-- The yields, final page and outcome of a run do not depend on the wait
log it starts with. -/
theorem creatorPag_core_waits (c : String) (rs : List ServerResp)
    (pg : Int) (resp : Option (List Post)) (acc : List Rec)
    (ws : List (Option String)) :
    pagCore (creatorPag c rs pg resp acc ws)
      = pagCore (creatorPag c rs pg resp acc []) := by
  rw [creatorPag_waits_append]
  rfl

/-- On an oracle whose statuses are only 200 and 429, the run yields, pages
and finishes exactly as the run over the oracle with the 429 responses
removed: a 429 loses no record, duplicates no record and leaves the page
counter where it was. -/
theorem creatorPag_filter_429 (c : String) (rs : List ServerResp)
    (h : ∀ r ∈ rs, r.status = 200 ∨ r.status = 429) :
    ∀ (pg : Int) (resp : Option (List Post)) (acc : List Rec)
      (ws : List (Option String)),
      pagCore (creatorPag c rs pg resp acc ws)
        = pagCore (creatorPag c (rs.filter fun r => r.status == 200)
            pg resp acc ws) := by
  induction rs with
  | nil => intro pg resp acc ws; rfl
  | cons r rest ih =>
    intro pg resp acc ws
    have hrest : ∀ x ∈ rest, x.status = 200 ∨ x.status = 429 :=
      fun x hx => h x (List.mem_cons_of_mem r hx)
    rcases h r (List.mem_cons_self r rest) with h200 | h429
    · have hf : (r :: rest).filter (fun r => r.status == 200)
          = r :: rest.filter (fun r => r.status == 200) := by
        simp [List.filter_cons, h200]
      rw [hf]
      by_cases hemp : r.posts.isEmpty
      · simp only [creatorPag, if_pos h200, if_pos hemp]
      · simp only [creatorPag, if_pos h200, if_neg hemp]
        exact ih hrest _ _ _ _
    · have h200f : ¬ r.status = 200 := by rw [h429]; decide
      have h404f : ¬ r.status = 404 := by rw [h429]; decide
      have hf : (r :: rest).filter (fun r => r.status == 200)
          = rest.filter (fun r => r.status == 200) := by
        simp [List.filter_cons, h429]
      rw [hf]
      simp only [creatorPag, if_neg h200f, if_neg h404f, if_pos h429]
      calc pagCore (creatorPag c rest pg resp acc (ws ++ [r.rateReset]))
          = pagCore (creatorPag c rest pg resp acc []) :=
            creatorPag_core_waits ..
        _ = pagCore (creatorPag c (rest.filter fun r => r.status == 200)
              pg resp acc []) := ih hrest _ _ _ _
        _ = pagCore (creatorPag c (rest.filter fun r => r.status == 200)
              pg resp acc ws) := (creatorPag_core_waits ..).symm

/-- Over an oracle of successful, nonempty pages the page counter advances by
exactly one per consumed page: it ends at the start value plus the number of
pages, and the run ends by exhausting the oracle. -/
theorem creatorPag_page_incr (c : String) (rs : List ServerResp)
    (h : ∀ r ∈ rs, r.status = 200 ∧ r.posts ≠ []) :
    ∀ (pg : Int) (resp : Option (List Post)) (acc : List Rec)
      (ws : List (Option String)),
      (creatorPag c rs pg resp acc ws).finalPage = pg + rs.length
        ∧ (creatorPag c rs pg resp acc ws).outcome = .outOfResponses := by
  induction rs with
  | nil => intro pg resp acc ws; simp [creatorPag]
  | cons r rest ih =>
    intro pg resp acc ws
    obtain ⟨hs, hne⟩ := h r (List.mem_cons_self r rest)
    have hemp : r.posts.isEmpty = false := by
      rcases hp : r.posts with _ | ⟨a, l⟩
      · exact absurd hp hne
      · rfl
    have hrest : ∀ x ∈ rest, x.status = 200 ∧ x.posts ≠ [] :=
      fun x hx => h x (List.mem_cons_of_mem r hx)
    simp only [creatorPag, if_pos hs, hemp, Bool.false_eq_true, if_false]
    obtain ⟨h1, h2⟩ := ih hrest (pg + 1) (some r.posts)
      (acc ++ buildPage c r.posts) ws
    refine ⟨?_, h2⟩
    rw [h1]
    simp only [List.length_cons]
    push_cast
    ring

/-- C5: on an oracle whose page requests either succeed or fail with
HTTP 429, the run behaves exactly as if the 429 responses were not there —
same records in the same order, same final page, same outcome (no record is
duplicated or skipped and the page counter never regresses); a leading 429
passes its `X-RateLimit-Reset` header to `wait` and retries with everything
else unchanged; and over successfully consumed nonempty pages the counter
advances by exactly one per page. -/
theorem c5_rate_limit_retry (c : String) (rs : List ServerResp)
    (h : ∀ r ∈ rs, r.status = 200 ∨ r.status = 429) :
    pagCore (creatorPosts c rs)
      = pagCore (creatorPosts c (rs.filter fun r => r.status == 200))
    ∧ (∀ (reset : Option String) (ps : List Post) (rest : List ServerResp),
        creatorPosts c (⟨429, reset, ps⟩ :: rest)
          = { creatorPosts c rest with
              waits := reset :: (creatorPosts c rest).waits })
    ∧ (∀ rs2 : List ServerResp, (∀ r ∈ rs2, r.status = 200 ∧ r.posts ≠ []) →
        (creatorPosts c rs2).finalPage = 1 + rs2.length
          ∧ (creatorPosts c rs2).outcome = .outOfResponses) := by
  refine ⟨creatorPag_filter_429 c rs h 1 none [] [], ?_, ?_⟩
  · intro reset ps rest
    show creatorPag c (⟨429, reset, ps⟩ :: rest) 1 none [] [] = _
    simp only [creatorPag]
    rw [creatorPag_waits_append c rest 1 none [] ([] ++ [reset])]
    simp [creatorPosts]
  · intro rs2 h2
    exact creatorPag_page_incr c rs2 h2 1 none [] []

theorem c5_rate_limit_retry_witness :
    (∀ r ∈ [(⟨429, some "1699999999", []⟩ : ServerResp),
        ⟨200, none, [⟨1, 0, "a/b.jpg", ""⟩]⟩, ⟨200, none, []⟩],
      r.status = 200 ∨ r.status = 429)
    ∧ pagCore (creatorPosts "a"
        [⟨429, some "1699999999", []⟩, ⟨200, none, [⟨1, 0, "a/b.jpg", ""⟩]⟩,
          ⟨200, none, []⟩])
      = pagCore (creatorPosts "a"
          ([⟨429, some "1699999999", []⟩, ⟨200, none, [⟨1, 0, "a/b.jpg", ""⟩]⟩,
            ⟨200, none, []⟩].filter fun r => r.status == 200)) :=
  ⟨by decide,
    (c5_rate_limit_retry "a"
      [⟨429, some "1699999999", []⟩, ⟨200, none, [⟨1, 0, "a/b.jpg", ""⟩]⟩,
        ⟨200, none, []⟩] (by decide)).1⟩

/-- C6: both pagination loops terminate on an exhausted listing — the
creator variant's JSON pagination returns, with no further records, the
moment a response body is the empty array, whatever responses would follow;
and the HTML pagination primitive returns the moment a fetched page lacks
the literal substring `</article>`. -/
theorem c6_termination :
    (∀ (c : String) (x : Option String) (rest : List ServerResp) (pg : Int)
        (resp : Option (List Post)) (acc : List Rec)
        (ws : List (Option String)),
      creatorPag c (⟨200, x, []⟩ :: rest) pg resp acc ws = ⟨acc, ws, pg, .done⟩)
    ∧ (∀ (p : String) (rest : List String) (pg : Int),
        containsSub p "</article>" = false →
        htmlPagination (p :: rest) pg = ⟨[], true, pg⟩) := by
  refine ⟨fun _ _ _ _ _ _ _ => rfl, fun p rest pg h => ?_⟩
  simp [htmlPagination, h]

theorem c6_termination_witness :
    containsSub "no posts here" "</article>" = false
    ∧ htmlPagination ["no posts here"] 1 = ⟨[], true, 1⟩ :=
  ⟨by decide, c6_termination.2 "no posts here" [] 1 (by decide)⟩

/-- C7: every message the category variant emits is a queue message whose
payload is a URL discovered by the shared HTML pagination, tagged with the
creator variant for the "hot" and "creators" categories and with the post
variant for "videos" and "photos"; it emits no directory or url messages of
its own. -/
theorem c7_category_queue (cat : String) (q : Option String)
    (pages : List String)
    (h : cat = "hot" ∨ cat = "creators" ∨ cat = "videos" ∨ cat = "photos") :
    ∀ m ∈ categoryItems cat q pages,
      ∃ u ∈ (basePagination q pages).yields,
        m = .queue u (if cat = "hot" ∨ cat = "creators" then .creatorExt
          else .postExt) := by
  have step : ∀ (ref : ExtractorRef) (m : Msg),
      m ∈ (basePagination q pages).yields.map (fun u => Msg.queue u ref) →
      ∃ u ∈ (basePagination q pages).yields, m = Msg.queue u ref := by
    intro ref m hm
    rcases List.mem_map.mp hm with ⟨u, hu, he⟩
    exact ⟨u, hu, he.symm⟩
  rcases h with rfl | rfl | rfl | rfl
  · intro m hm
    rcases step .creatorExt m hm with ⟨u, hu, he⟩
    exact ⟨u, hu, by rw [he, if_pos (by decide)]⟩
  · intro m hm
    rcases step .creatorExt m hm with ⟨u, hu, he⟩
    exact ⟨u, hu, by rw [he, if_pos (by decide)]⟩
  · intro m hm
    rcases step .postExt m hm with ⟨u, hu, he⟩
    exact ⟨u, hu, by rw [he, if_neg (by decide)]⟩
  · intro m hm
    rcases step .postExt m hm with ⟨u, hu, he⟩
    exact ⟨u, hu, by rw [he, if_neg (by decide)]⟩

theorem c7_category_queue_witness :
    ("videos" = "hot" ∨ "videos" = "creators" ∨ "videos" = "videos"
      ∨ "videos" = "photos")
    ∧ ∀ m ∈ categoryItems "videos" none
        ["<article class=\"movie-item\"><a href=\"https://hotleak.vip/a/video/1\">z</a></article>"],
      ∃ u ∈ (basePagination none
          ["<article class=\"movie-item\"><a href=\"https://hotleak.vip/a/video/1\">z</a></article>"]).yields,
        m = .queue u (if "videos" = "hot" ∨ "videos" = "creators"
          then .creatorExt else .postExt) :=
  ⟨by decide,
    c7_category_queue "videos" none
      ["<article class=\"movie-item\"><a href=\"https://hotleak.vip/a/video/1\">z</a></article>"]
      (by decide)⟩

/-- C8: the post variant emits exactly one record; on the video path the
record's url is the `ytdl:`-prefixed streaming URL extracted from the
`"src":"..."` fragment of the HTML-unescaped content block and the
extension is forced to "mp4"; on the photo path the url is the `data-src`
attribute value and filename/extension come from that url's last path
segment. -/
theorem c8_post_record (creator id_ pageText block : String)
    (hb : extractS pageText "<div class=\"movie-image thumb\">" "</article>"
      = some block) :
    (∀ s, extractS (unescape block) "\"src\":\"" "\"" = some s →
      postPostsBody creator "video" id_ pageText
        = .ok [{ id := some (parse_intS (some id_) 0), creator := some creator,
                 ptype := some "video", url := some ("ytdl:" ++ s),
                 filename := some (nameExt ("ytdl:" ++ s)).1,
                 extension := some "mp4" }])
    ∧ (∀ u, extractS block "data-src=\"" "\"" = some u →
      postPostsBody creator "photo" id_ pageText
        = .ok [{ id := some (parse_intS (some id_) 0), creator := some creator,
                 ptype := some "photo", url := some u,
                 filename := some (nameExt u).1,
                 extension := some (nameExt u).2 }])
    ∧ (∀ (t : String) (recs : List Rec),
        postPostsBody creator t id_ pageText = .ok recs → recs.length = 1) := by
  refine ⟨?_, ?_, ?_⟩
  · intro s hs
    unfold postPostsBody
    rw [if_neg (by decide : ¬ ("video" : String) = "photo"), if_pos rfl, hb]
    dsimp only
    rw [hs]
    rfl
  · intro u hu
    unfold postPostsBody
    rw [if_pos rfl, hb]
    dsimp only
    rw [hu]
    rfl
  · intro t recs h
    unfold postPostsBody at h
    by_cases hp : t = "photo"
    · rw [if_pos hp, hb] at h
      dsimp only at h
      rcases hu : extractS block "data-src=\"" "\"" with _ | u
      · rw [hu] at h
        exact Except.noConfusion h
      · rw [hu] at h
        injection h with h
        subst h
        rfl
    · rw [if_neg hp] at h
      by_cases hv : t = "video"
      · rw [if_pos hv, hb] at h
        dsimp only at h
        rcases hs : extractS (unescape block) "\"src\":\"" "\"" with _ | s
        · rw [hs] at h
          exact Except.noConfusion h
        · rw [hs] at h
          injection h with h
          subst h
          rfl
      · rw [if_neg hv] at h
        injection h with h
        subst h
        rfl

theorem c8_post_record_witness :
    extractS "x<div class=\"movie-image thumb\">j &quot;src&quot;:&quot;https://cdn.example/1/index.m3u8&quot; w</article>r"
        "<div class=\"movie-image thumb\">" "</article>"
      = some "j &quot;src&quot;:&quot;https://cdn.example/1/index.m3u8&quot; w"
    ∧ extractS
        (unescape "j &quot;src&quot;:&quot;https://cdn.example/1/index.m3u8&quot; w")
        "\"src\":\"" "\""
      = some "https://cdn.example/1/index.m3u8"
    ∧ postPostsBody "alice" "video" "17"
        "x<div class=\"movie-image thumb\">j &quot;src&quot;:&quot;https://cdn.example/1/index.m3u8&quot; w</article>r"
      = .ok [{ id := some (parse_intS (some "17") 0), creator := some "alice",
               ptype := some "video",
               url := some ("ytdl:" ++ "https://cdn.example/1/index.m3u8"),
               filename :=
                 some (nameExt ("ytdl:" ++ "https://cdn.example/1/index.m3u8")).1,
               extension := some "mp4" }] :=
  ⟨by decide, by decide,
    (c8_post_record "alice" "17"
      "x<div class=\"movie-image thumb\">j &quot;src&quot;:&quot;https://cdn.example/1/index.m3u8&quot; w</article>r"
      "j &quot;src&quot;:&quot;https://cdn.example/1/index.m3u8&quot; w"
      (by decide)).1 "https://cdn.example/1/index.m3u8" (by decide)⟩

/-- C9: `hotleak.vip/search` without a query string does not match the
search pattern (whose `\?([^#]+)` part is not optional), does match the
creator pattern (`search` is not among the excluded reserved names), and is
therefore routed to the creator variant. -/
theorem c9_search_routing :
    matchSearch "https://hotleak.vip/search" = false
    ∧ matchCreator "https://hotleak.vip/search" = true
    ∧ route "https://hotleak.vip/search" = some .creatorExt := by
  decide

/-- C10: the post pattern carries the same reserved-name exclusion as the
creator pattern — for each reserved category name and every id string, the
`/<name>/photo/<id>` and `/<name>/video/<id>` URLs fail to match the post
pattern, because the negative lookahead rejects the creator segment. -/
theorem c10_reserved_not_post (id_ : String) :
    matchPost ("hotleak.vip/hot/photo/" ++ id_) = false
    ∧ matchPost ("hotleak.vip/hot/video/" ++ id_) = false
    ∧ matchPost ("hotleak.vip/creators/photo/" ++ id_) = false
    ∧ matchPost ("hotleak.vip/creators/video/" ++ id_) = false
    ∧ matchPost ("hotleak.vip/videos/photo/" ++ id_) = false
    ∧ matchPost ("hotleak.vip/videos/video/" ++ id_) = false
    ∧ matchPost ("hotleak.vip/photos/photo/" ++ id_) = false
    ∧ matchPost ("hotleak.vip/photos/video/" ++ id_) = false := by
  refine ⟨?_, ?_, ?_, ?_, ?_, ?_, ?_, ?_⟩ <;>
    (unfold matchPost matchRE; rw [String.data_append]; rfl)

end Hotleak
